import Mathlib

/-!
Verification of the adk-chatkit adapter library (`src/adk-chatkit/src/adk_chatkit/`)
against its natural-language specification.

The development shallowly embeds the Python sources:

* `_response.py` — `stream_agent_response`, the agent-event → UI-event translator.
  The async generator is embedded as a pure function from the (finite) list of
  consumed agent events to the list of yielded stream events; the `uuid.uuid4()`
  item identifier, generated once at the top of the call, is passed as the
  `response_id` parameter.  Wall-clock `created_at` timestamps (`datetime.now()`)
  carry no information relevant to any claim and are not represented on items.
* `_processor.py` — `ADKRequestProcessor`: `_serialize`, `_process_streaming`,
  `_process_streaming_impl`, `_process_new_thread_item_respond`.  The abstract
  `respond` hook is a function parameter; the freshly generated ids
  (`default_generate_id`) and clock readings are parameters as well.
* `_thread_management.py` — `list_threads`, `load_thread`, `load_full_thread`,
  `create_thread` over an explicit in-memory model of the ADK
  `BaseSessionService` (sessions keyed by app name / user id / session id).
* `_store.py` — `ADKStore.save_thread` and `_serialize_thread_metadata`.

Python `raise` is embedded as `Except PyError`; `Optional` as `Option`; the
pydantic serializer `model_dump_json(by_alias=..., exclude_none=...)` as a
computable JSON dump over a model's field tree (`JsonValue`).
-/

/-! ### Upstream agent events (`google.adk.events.Event`, as consumed)

Only the fields the translator reads are represented: `content` (optional,
holding `parts`), each part's optional `text`, and the `partial` flag
(`Optional[bool]` in the source; the translator only tests its truthiness, so it
is embedded as a `Bool`, renamed `isPartial` because `partial` is a Lean
keyword). -/

structure AdkPart where
  text : Option String
deriving Repr, DecidableEq

structure AdkContent where
  parts : List AdkPart
deriving Repr, DecidableEq

structure AdkEvent where
  content : Option AdkContent
  isPartial : Bool
deriving Repr, DecidableEq

/-- Python truthiness of `p.text` (`Optional[str]`): skipped when `None` or `""`. -/
def truthyText (t : Option String) : Option String :=
  match t with
  | none => none
  | some s => if s = "" then none else some s

/-- Texts of the parts that pass the `if p.text:` truthiness test, in order. -/
def truthyTexts (ps : List AdkPart) : List String :=
  ps.filterMap (fun p => truthyText p.text)

/-- Parts of an event (`[]` when `event.content is None`). -/
def AdkEvent.partsOf (ev : AdkEvent) : List AdkPart :=
  match ev.content with
  | none => []
  | some c => c.parts

/-! ### ChatKit model types (`chatkit.types`, as used by the adapter)

These mirror the fields the adapter constructs or reads.  `created_at`
timestamps are omitted (wall clock).  `metadata` maps and other free-form
payloads are JSON field trees. -/

mutual
inductive JsonValue where
  | null
  | str (s : String)
  | num (n : Int)
  | jbool (b : Bool)
  | arr (elems : JsonArray)
  | obj (fields : JsonFields)

inductive JsonArray where
  | nil
  | cons (v : JsonValue) (rest : JsonArray)

/-- Fields of a pydantic model / JSON object: Python field name, wire alias,
value.  A `null` value stands for a field whose Python value is `None`. -/
inductive JsonFields where
  | nil
  | cons (name fieldAlias : String) (v : JsonValue) (rest : JsonFields)
end

structure AssistantMessageContent where
  text : String
deriving Repr, DecidableEq

structure AssistantMessageItem where
  id : String
  content : List AssistantMessageContent
  thread_id : String
deriving Repr, DecidableEq

/-- One entry of `UserMessageInput.content` / `UserMessageItem.content`; the
processor passes the list through unmodified, so the payload is opaque here. -/
structure UserMessageContent where
  text : String
deriving Repr, DecidableEq

/-- The `inference_options` payload, passed through unmodified; represented by
its field tree. -/
structure InferenceOptions where
  payload : Option String
deriving Repr, DecidableEq

structure UserMessageItem where
  id : String
  content : List UserMessageContent
  thread_id : String
  quoted_text : Option String
  inference_options : InferenceOptions
deriving Repr, DecidableEq

/-- The `ThreadItem` union, restricted to the variants the embedded code
constructs. -/
inductive ThreadItem where
  | user (item : UserMessageItem)
  | assistant (item : AssistantMessageItem)
deriving Repr, DecidableEq

def ThreadItem.itemId : ThreadItem → String
  | .user u => u.id
  | .assistant a => a.id

structure Page (α : Type) where
  data : List α
deriving Repr, DecidableEq

structure ThreadMetadata where
  id : String
  title : Option String
  created_at : Nat
  metadata : List (String × String)
deriving Repr, DecidableEq

/-- `chatkit.types.Thread`: thread metadata plus an items page. -/
structure Thread where
  id : String
  title : Option String
  created_at : Nat
  metadata : List (String × String)
  items : Page ThreadItem
deriving Repr, DecidableEq

def Thread.toMetadata (t : Thread) : ThreadMetadata :=
  { id := t.id, title := t.title, created_at := t.created_at, metadata := t.metadata }

/-- The `ThreadItemUpdated.update` union, restricted to the variants the
translator constructs. -/
inductive ItemUpdate where
  | partAdded (content_index : Nat) (content : AssistantMessageContent)
  | partTextDelta (delta : String) (content_index : Nat)
  | partDone (content : AssistantMessageContent) (content_index : Nat)
deriving Repr, DecidableEq

/-- The `ThreadStreamEvent` union, restricted to the variants the embedded code
constructs. -/
inductive ThreadStreamEvent where
  | threadCreated (thread : Thread)
  | itemAdded (item : ThreadItem)
  | itemUpdated (item_id : String) (update : ItemUpdate)
  | itemDone (item : ThreadItem)
deriving Repr, DecidableEq

/-! ### The event translator (`_response.py`, `stream_agent_response`) -/

/-- The body of the inner `for p in event.content.parts:` loop.  The
accumulator is the local `text_from_final_update`, initialised to `""` just
before the loop; a part with truthy text yields a delta update when
`event.partial` is truthy and otherwise a done update, also overwriting
`text_from_final_update`.  Returns the yielded updates and the final value of
`text_from_final_update`. -/
def emitPartUpdates (isPartial : Bool) (response_id : String) (content_index : Nat) :
    List AdkPart → String → List ThreadStreamEvent × String
  | [], acc => ([], acc)
  | p :: rest, acc =>
    match truthyText p.text with
    | none => emitPartUpdates isPartial response_id content_index rest acc
    | some t =>
      if isPartial then
        let r := emitPartUpdates isPartial response_id content_index rest acc
        (.itemUpdated response_id (.partTextDelta t content_index) :: r.1, r.2)
      else
        let r := emitPartUpdates isPartial response_id content_index rest t
        (.itemUpdated response_id (.partDone ⟨t⟩ content_index) :: r.1, r.2)

/-- The body of the `async for event in adk_response:` loop, for one event.
When `event.content is None` the code yields `ThreadItemAddedEvent` (empty
assistant item) and an empty `AssistantMessageContentPartAdded` update; when
`event.content.parts` is truthy (non-empty) it runs the part loop and then —
still inside the `async for`, at the indentation of the source — yields a
`ThreadItemDoneEvent` whose single content is `text_from_final_update`. -/
def processEvent (response_id thread_id : String) (content_index : Nat) (ev : AdkEvent) :
    List ThreadStreamEvent :=
  match ev.content with
  | none =>
    [.itemAdded (.assistant ⟨response_id, [], thread_id⟩),
     .itemUpdated response_id (.partAdded content_index ⟨""⟩)]
  | some c =>
    if c.parts.isEmpty then []
    else
      let r := emitPartUpdates ev.isPartial response_id content_index c.parts ""
      r.1 ++ [.itemDone (.assistant ⟨response_id, [⟨r.2⟩], thread_id⟩)]

/-- The `async for` loop of `stream_agent_response`, over the consumed event
list.  `content_index` is the local set to `0` before the loop and never
changed. -/
def streamLoop (response_id thread_id : String) (content_index : Nat) :
    List AdkEvent → List ThreadStreamEvent
  | [] => []
  | ev :: rest =>
    processEvent response_id thread_id content_index ev
      ++ streamLoop response_id thread_id content_index rest

/-- `stream_agent_response(thread, adk_response)`.  `response_id` is the
`str(uuid.uuid4())` generated once at the top of the call; `adk_response` is
`none` for the `if adk_response is None: return` branch and otherwise the list
of events the async generator produces. -/
def stream_agent_response (response_id : String) (thread : ThreadMetadata)
    (adk_response : Option (List AdkEvent)) : List ThreadStreamEvent :=
  match adk_response with
  | none => []
  | some events => streamLoop response_id thread.id 0 events

/-! ### Observations on stream-event lists (counts and carried texts) -/

def isItemAdded : ThreadStreamEvent → Bool
  | .itemAdded _ => true
  | _ => false

def isPartAdded : ThreadStreamEvent → Bool
  | .itemUpdated _ (.partAdded _ _) => true
  | _ => false

def isItemDone : ThreadStreamEvent → Bool
  | .itemDone _ => true
  | _ => false

def countItemAdded (es : List ThreadStreamEvent) : Nat := (es.filter isItemAdded).length
def countPartAdded (es : List ThreadStreamEvent) : Nat := (es.filter isPartAdded).length
def countItemDone (es : List ThreadStreamEvent) : Nat := (es.filter isItemDone).length

/-- Texts carried by part-delta updates, in emission order. -/
def deltaTexts (es : List ThreadStreamEvent) : List String :=
  es.filterMap (fun e =>
    match e with
    | .itemUpdated _ (.partTextDelta d _) => some d
    | _ => none)

/-- Texts carried by part-done updates, in emission order. -/
def partDoneTexts (es : List ThreadStreamEvent) : List String :=
  es.filterMap (fun e =>
    match e with
    | .itemUpdated _ (.partDone c _) => some c.text
    | _ => none)

/-- The item identifier a stream event carries, if any. -/
def eventItemId : ThreadStreamEvent → Option String
  | .threadCreated _ => none
  | .itemAdded item => some item.itemId
  | .itemUpdated item_id _ => some item_id
  | .itemDone item => some item.itemId

/-! ### Observations on agent-event lists (input side) -/

/-- Number of events whose `content` is `None` (the priming branch). -/
def countNoContent (evs : List AdkEvent) : Nat :=
  (evs.filter (fun ev => ev.content.isNone)).length

/-- Does the event take the `if event.content.parts:` branch? -/
def hasParts (ev : AdkEvent) : Bool :=
  match ev.content with
  | none => false
  | some c => !c.parts.isEmpty

def countPartsBearing (evs : List AdkEvent) : Nat :=
  (evs.filter hasParts).length

/-- Truthy texts of the parts of `partial=true` events, in order. -/
def partialDeltaTexts (evs : List AdkEvent) : List String :=
  evs.flatMap (fun ev => if ev.isPartial then truthyTexts ev.partsOf else [])

/-- Truthy texts of the parts of `partial=false` events, in order. -/
def finalChunkTexts (evs : List AdkEvent) : List String :=
  evs.flatMap (fun ev => if ev.isPartial then [] else truthyTexts ev.partsOf)

/-- Does the sequence contain a `partial=false` event carrying non-empty text? -/
def hasFinalText (evs : List AdkEvent) : Bool :=
  !(finalChunkTexts evs).isEmpty

/-! ### The pydantic serializer (`model_dump_json(by_alias=..., exclude_none=...)`)

A pydantic model instance is represented by its field tree (`JsonValue.obj`).
`byAlias` selects the wire alias over the Python field name; `excludeNone`
drops fields whose value is `None`/`null`.  This models the behaviour of the
chatkit models' serializer that `_processor.py` invokes. -/

mutual
def model_dump_json (byAlias excludeNone : Bool) : JsonValue → String
  | .null => "null"
  | .str s => "\"" ++ s ++ "\""
  | .num n => toString n
  | .jbool b => if b then "true" else "false"
  | .arr xs => "[" ++ String.intercalate "," (dumpElems byAlias excludeNone xs) ++ "]"
  | .obj fs => "\x7b" ++ String.intercalate "," (dumpFields byAlias excludeNone fs) ++ "\x7d"

def dumpElems (byAlias excludeNone : Bool) : JsonArray → List String
  | .nil => []
  | .cons v rest => model_dump_json byAlias excludeNone v :: dumpElems byAlias excludeNone rest

def dumpFields (byAlias excludeNone : Bool) : JsonFields → List String
  | .nil => []
  | .cons name fieldAlias v rest =>
    if excludeNone && (v matches .null) then dumpFields byAlias excludeNone rest
    else ("\"" ++ (if byAlias then fieldAlias else name) ++ "\":"
            ++ model_dump_json byAlias excludeNone v)
          :: dumpFields byAlias excludeNone rest
end

/-- `_processor.py`, `_serialize(obj)`: `obj.model_dump_json(by_alias=True,
exclude_none=True).encode("utf-8")`.  The result is the UTF-8 encoding of the
returned string; the embedding keeps the string. -/
def _serialize (obj : JsonValue) : String :=
  model_dump_json true true obj

/-- `_processor.py`, `_process_streaming`: the loop framing each serialized
event as `data: <json>\n\n` bytes.  Events are represented by their field
trees. -/
def _process_streaming : List JsonValue → List String
  | [] => []
  | e :: rest => ("data: " ++ _serialize e ++ "\n\n") :: _process_streaming rest

/-! ### The ADK session service (`google.adk.sessions.BaseSessionService`)

The adapter consumes `get_session`, `create_session`, `append_event` and
`list_sessions`.  The service is modelled as an in-memory keyed map (the
semantics of ADK's `InMemorySessionService`): sessions are keyed by
app name / user id / session id; `append_event` appends the event to the
session's append-only event log and merges `actions.state_delta` into the
session state.  Timestamps (`last_update_time`, event `timestamp`) are `Nat`
clock readings passed in by the caller. -/

structure SessionKey where
  app_name : String
  user_id : String
  session_id : String
deriving Repr, DecidableEq

/-- An ADK event as appended by `ADKStore.save_thread` (fields the adapter
sets: `invocation_id`, `author`, `actions.state_delta`, `timestamp`). -/
structure SessionEvent where
  invocation_id : String
  author : String
  state_delta : List (String × JsonValue)
  timestamp : Nat

structure Session where
  id : String
  state : List (String × JsonValue)
  events : List SessionEvent
  last_update_time : Nat

structure SessionService where
  sessions : List (SessionKey × Session)

/-- Association-map lookup (first match; keys are unique under the map
semantics of the host service). -/
def lookupEntry : List (SessionKey × Session) → SessionKey → Option Session
  | [], _ => none
  | (k', v) :: rest, k => if k' = k then some v else lookupEntry rest k

/-- Association-map update-or-insert (`dict.__setitem__` semantics). -/
def setEntry : List (SessionKey × Session) → SessionKey → Session → List (SessionKey × Session)
  | [], k, v => [(k, v)]
  | (k', v') :: rest, k, v =>
    if k' = k then (k, v) :: rest else (k', v') :: setEntry rest k v

/-- Python `dict.update` on an association map: each delta key is set. -/
def applyDelta (state delta : List (String × JsonValue)) : List (String × JsonValue) :=
  delta.foldl
    (fun st kv =>
      if st.any (fun p => p.1 = kv.1) then
        st.map (fun p => if p.1 = kv.1 then kv else p)
      else st ++ [kv])
    state

def get_session (svc : SessionService) (app_name user_id session_id : String) :
    Option Session :=
  lookupEntry svc.sessions ⟨app_name, user_id, session_id⟩

/-- `create_session`: stores a fresh session with the given state (empty when
`None` is passed), an empty event log, and the current time, and returns it. -/
def create_session (svc : SessionService) (app_name user_id session_id : String)
    (state : List (String × JsonValue)) (now : Nat) : SessionService × Session :=
  let s : Session := { id := session_id, state := state, events := [], last_update_time := now }
  ({ sessions := setEntry svc.sessions ⟨app_name, user_id, session_id⟩ s }, s)

/-- `append_event(session, event)`: appends the event to the stored session's
log and merges the event's `state_delta` into the session state. -/
def append_event (svc : SessionService) (app_name user_id : String) (s : Session)
    (e : SessionEvent) : SessionService :=
  let s' : Session :=
    { s with state := applyDelta s.state e.state_delta, events := s.events ++ [e] }
  { sessions := setEntry svc.sessions ⟨app_name, user_id, s.id⟩ s' }

/-- `list_sessions(app_name, user_id)`: all sessions stored under the app/user
pair, in storage order. -/
def list_sessions (svc : SessionService) (app_name user_id : String) : List Session :=
  svc.sessions.filterMap
    (fun p => if p.1.app_name = app_name ∧ p.1.user_id = user_id then some p.2 else none)

/-! ### Errors

The adapter signals a missing session by `raise ValueError(f"Session with id
\x7bsession_id\x7d not found for user \x7buser_id\x7d in app \x7bapp_name\x7d")`.
No dedicated not-found error type is defined anywhere in
`src/adk-chatkit`; the constructor `threadNotFound` below is Modelled from the
spec (its §7 error taxonomy names a distinguished `ThreadNotFound` value) so
that the spec's claim about the raised error can be stated; the embedded code
never produces it. -/

inductive PyError where
  | valueError (msg : String)
  | threadNotFound (msg : String)
deriving Repr, DecidableEq

/-- The message of the `ValueError` raised by the thread-loading helpers. -/
def sessionNotFoundMsg (session_id user_id app_name : String) : String :=
  "Session with id " ++ session_id ++ " not found for user " ++ user_id
    ++ " in app " ++ app_name

def isThreadNotFound {α : Type} : Except PyError α → Bool
  | .error (.threadNotFound _) => true
  | _ => false

/-! ### Thread management (`_thread_management.py`) -/

/-- `ADKContext` (`_context.py`): the app/user pair of the caller. -/
structure ADKContext where
  app_name : String
  user_id : String
deriving Repr, DecidableEq

/-- `chatkit.types.ThreadListParams`: accepted by `list_threads` but never
read (pagination is not honoured). -/
structure ThreadListParams where
  limit : Option Nat
  after : Option String
  order : Option String
deriving Repr, DecidableEq

/-- `list_threads`: maps every session of the app/user pair to a
`ThreadMetadata` with constant title `"No title"`, the session's
`last_update_time` as `created_at`, and an empty metadata map.  `params` is
ignored by the source. -/
def list_threads (svc : SessionService) (adk_context : ADKContext)
    (params : ThreadListParams) : Page ThreadMetadata :=
  { data :=
      (list_sessions svc adk_context.app_name adk_context.user_id).map
        (fun session =>
          { id := session.id
            title := some "No title"
            created_at := session.last_update_time
            metadata := [] }) }

/-- `load_thread`: `get_session`, then `raise ValueError(...)` when the session
is absent, else a `ThreadMetadata` with constant title and empty metadata. -/
def load_thread (svc : SessionService) (adk_context : ADKContext) (session_id : String) :
    Except PyError ThreadMetadata :=
  match get_session svc adk_context.app_name adk_context.user_id session_id with
  | none =>
    .error (.valueError (sessionNotFoundMsg session_id adk_context.user_id adk_context.app_name))
  | some session =>
    .ok
      { id := session.id
        title := some "No title"
        created_at := session.last_update_time
        metadata := [] }

/-- `load_full_thread`: like `load_thread` but returns a full `Thread`; the
loop that would materialise `session_items` from the session's events is
commented out in the source, so the items page is always empty, and the
`metadata` field is not passed (the library default, an empty map, applies). -/
def load_full_thread (svc : SessionService) (adk_context : ADKContext) (session_id : String) :
    Except PyError Thread :=
  match get_session svc adk_context.app_name adk_context.user_id session_id with
  | none =>
    .error (.valueError (sessionNotFoundMsg session_id adk_context.user_id adk_context.app_name))
  | some session =>
    .ok
      { title := some "No title"
        id := session.id
        created_at := session.last_update_time
        metadata := []
        items := { data := [] } }

/-- `create_thread`: creates the backing session under a freshly generated
thread id (`default_generate_id("thread")`, passed in as `thread_id`) and
returns a `Thread` with constant title and an empty items page. -/
def create_thread (svc : SessionService) (adk_context : ADKContext)
    (thread_id : String) (state : List (String × JsonValue)) (now : Nat) :
    SessionService × Thread :=
  let r := create_session svc adk_context.app_name adk_context.user_id thread_id state now
  (r.1,
    { title := some "No title"
      id := r.2.id
      created_at := r.2.last_update_time
      metadata := []
      items := { data := [] } })

/-! ### The session store adapter (`_store.py`, `ADKStore`) -/

/-- `_CHATKIT_THREAD_METADTA` (source spelling): the session-state key under
which the serialized thread metadata is stored. -/
def _CHATKIT_THREAD_METADTA : String := "chatkit-thread-metadata"

def jsonFieldsOf : List (String × JsonValue) → JsonFields
  | [] => .nil
  | (n, v) :: rest => .cons n n v (jsonFieldsOf rest)

/-- `_serialize_thread_metadata(thread)`:
`thread.model_dump_json(exclude_none=True, exclude=\x7b"items"\x7d)` followed by
`json.loads` — the thread-metadata field tree without the items page, with the
`None` title dropped when absent. -/
def _serialize_thread_metadata (thread : ThreadMetadata) : JsonValue :=
  .obj (jsonFieldsOf
    ([("id", .str thread.id)]
      ++ (match thread.title with
          | some s => [("title", JsonValue.str s)]
          | none => [])
      ++ [("created_at", .num thread.created_at),
          ("metadata",
            .obj (jsonFieldsOf (thread.metadata.map (fun p => (p.1, JsonValue.str p.2)))))]))

/-- `ADKStore.save_thread(thread, context)`: when no session exists for the
thread id, create one whose state holds the serialized metadata under
`_CHATKIT_THREAD_METADTA`; otherwise append a single system event whose
`actions.state_delta` carries the serialized metadata.  `invocation_id` is the
`uuid4().hex` the source generates, `now` the clock reading. -/
def save_thread (svc : SessionService) (context : ADKContext) (thread : ThreadMetadata)
    (invocation_id : String) (now : Nat) : SessionService :=
  match get_session svc context.app_name context.user_id thread.id with
  | none =>
    (create_session svc context.app_name context.user_id thread.id
      [(_CHATKIT_THREAD_METADTA, _serialize_thread_metadata thread)] now).1
  | some session =>
    let system_event : SessionEvent :=
      { invocation_id := invocation_id
        author := "system"
        state_delta := [(_CHATKIT_THREAD_METADTA, _serialize_thread_metadata thread)]
        timestamp := now }
    append_event svc context.app_name context.user_id session system_event

/-! ### The request processor (`_processor.py`, `ADKRequestProcessor`) -/

/-- `chatkit.types.UserMessageInput`, restricted to the fields the processor
reads. -/
structure UserMessageInput where
  content : List UserMessageContent
  quoted_text : Option String
  inference_options : InferenceOptions
deriving Repr, DecidableEq

/-- The streaming half of the `ChatKitReq` union:
`ThreadsCreateReq` / `ThreadsAddUserMessageReq` with the parameters the
processor reads. -/
inductive StreamingReq where
  | threadsCreate (input : UserMessageInput)
  | threadsAddUserMessage (thread_id : String) (input : UserMessageInput)
deriving Repr, DecidableEq

/-- `_build_user_message_item(input, thread)`; the fresh
`default_generate_id("message")` is the `message_id` parameter, and
`attachments=[]` / `created_at=now()` are not represented. -/
def _build_user_message_item (input : UserMessageInput) (thread : ThreadMetadata)
    (message_id : String) : UserMessageItem :=
  { id := message_id
    content := input.content
    thread_id := thread.id
    quoted_text := input.quoted_text
    inference_options := input.inference_options }

/-- `_process_new_thread_item_respond`: yield `ThreadItemDoneEvent` for the
user item, then every event of the abstract `respond` delegate.  `respond` is
the pluggable hook, a parameter of the embedding. -/
def _process_new_thread_item_respond
    (respond : ThreadMetadata → Option UserMessageItem → List ThreadStreamEvent)
    (thread : ThreadMetadata) (item : UserMessageItem) : List ThreadStreamEvent :=
  .itemDone (.user item) :: respond thread (some item)

/-- `_process_streaming_impl`: the `match request:` dispatcher over the
streaming request kinds.  The create branch calls `create_thread` (which backs
the thread with a fresh session; `new_thread_id` is the generated
`default_generate_id("thread")`), yields `ThreadCreatedEvent`, then delegates;
the add-user-message branch loads the existing thread (propagating the
not-found error) and delegates.  The `Thread` handed to the delegate is used
through its metadata view. -/
def _process_streaming_impl (svc : SessionService) (adk_context : ADKContext)
    (request : StreamingReq)
    (respond : ThreadMetadata → Option UserMessageItem → List ThreadStreamEvent)
    (new_thread_id message_id : String) (now : Nat) :
    Except PyError (SessionService × List ThreadStreamEvent) :=
  match request with
  | .threadsCreate input =>
    let r := create_thread svc adk_context new_thread_id [] now
    let thread := r.2
    let user_message := _build_user_message_item input thread.toMetadata message_id
    .ok (r.1,
      .threadCreated thread
        :: _process_new_thread_item_respond respond thread.toMetadata user_message)
  | .threadsAddUserMessage thread_id input =>
    match load_thread svc adk_context thread_id with
    | .error e => .error e
    | .ok thread_metadata =>
      let user_message := _build_user_message_item input thread_metadata message_id
      .ok (svc, _process_new_thread_item_respond respond thread_metadata user_message)

/-! ### Concrete sample inputs for the closed counterexample theorems -/

def sampleThread : ThreadMetadata :=
  { id := "thr_1", title := some "No title", created_at := 0, metadata := [] }

/-- A `partial=false` event carrying one part with text `"Hello"`. -/
def finalHelloEvent : AdkEvent :=
  { content := some { parts := [{ text := some "Hello" }] }, isPartial := false }

/-- A `partial=false` event carrying one part with text `"World"`. -/
def finalWorldEvent : AdkEvent :=
  { content := some { parts := [{ text := some "World" }] }, isPartial := false }

/-- A `partial=true` delta event carrying the given text. -/
def deltaEvent (s : String) : AdkEvent :=
  { content := some { parts := [{ text := some s }] }, isPartial := true }

/-- An event with `content is None` (the "no content yet" upstream signal). -/
def noContentEvent : AdkEvent :=
  { content := none, isPartial := false }

/-! ### Shape lemmas about the translator -/

theorem streamLoop_eq_flatMap (response_id thread_id : String) (content_index : Nat)
    (evs : List AdkEvent) :
    streamLoop response_id thread_id content_index evs
      = evs.flatMap (processEvent response_id thread_id content_index) := by
  induction evs with
  | nil => rfl
  | cons ev rest ih => simp [streamLoop, ih]

theorem emitPartUpdates_fst_true (response_id : String) (content_index : Nat)
    (ps : List AdkPart) (acc : String) :
    (emitPartUpdates true response_id content_index ps acc).1
      = (truthyTexts ps).map
          (fun t => .itemUpdated response_id (.partTextDelta t content_index)) := by
  induction ps generalizing acc with
  | nil => simp [emitPartUpdates, truthyTexts]
  | cons p rest ih =>
    cases h : truthyText p.text with
    | none => simp [emitPartUpdates, truthyTexts, h, ih acc]
    | some t => simp [emitPartUpdates, truthyTexts, h, ih acc]

theorem emitPartUpdates_fst_false (response_id : String) (content_index : Nat)
    (ps : List AdkPart) (acc : String) :
    (emitPartUpdates false response_id content_index ps acc).1
      = (truthyTexts ps).map
          (fun t => .itemUpdated response_id (.partDone ⟨t⟩ content_index)) := by
  induction ps generalizing acc with
  | nil => simp [emitPartUpdates, truthyTexts]
  | cons p rest ih =>
    cases h : truthyText p.text with
    | none => simp [emitPartUpdates, truthyTexts, h, ih acc]
    | some t => simp [emitPartUpdates, truthyTexts, h, ih t]

/-- The final value of `text_from_final_update` for a `partial=false` event:
the last truthy part text, or the initial accumulator when there is none. -/
theorem emitPartUpdates_snd_false (response_id : String) (content_index : Nat)
    (ps : List AdkPart) (acc : String) :
    (emitPartUpdates false response_id content_index ps acc).2
      = (truthyTexts ps).getLastD acc := by
  induction ps generalizing acc with
  | nil => simp [emitPartUpdates, truthyTexts]
  | cons p rest ih =>
    cases h : truthyText p.text with
    | none => simp [emitPartUpdates, truthyTexts, h, ih acc]
    | some t =>
      have h2 : truthyTexts (p :: rest) = t :: truthyTexts rest := by
        simp [truthyTexts, h]
      rw [h2, List.getLastD_cons]
      simpa [emitPartUpdates, h] using ih t

theorem emitPartUpdates_snd_true (response_id : String) (content_index : Nat)
    (ps : List AdkPart) (acc : String) :
    (emitPartUpdates true response_id content_index ps acc).2 = acc := by
  induction ps generalizing acc with
  | nil => rfl
  | cons p rest ih =>
    cases h : truthyText p.text with
    | none => simp [emitPartUpdates, h, ih acc]
    | some t => simp [emitPartUpdates, h, ih acc]

/-! ### Per-event count and text lemmas -/

theorem countItemAdded_append (a b : List ThreadStreamEvent) :
    countItemAdded (a ++ b) = countItemAdded a + countItemAdded b := by
  simp [countItemAdded, List.filter_append]

theorem countPartAdded_append (a b : List ThreadStreamEvent) :
    countPartAdded (a ++ b) = countPartAdded a + countPartAdded b := by
  simp [countPartAdded, List.filter_append]

theorem countItemDone_append (a b : List ThreadStreamEvent) :
    countItemDone (a ++ b) = countItemDone a + countItemDone b := by
  simp [countItemDone, List.filter_append]

theorem countItemAdded_processEvent (response_id thread_id : String) (content_index : Nat)
    (ev : AdkEvent) :
    countItemAdded (processEvent response_id thread_id content_index ev)
      = if ev.content.isNone then 1 else 0 := by
  cases hc : ev.content with
  | none => simp [processEvent, hc, countItemAdded, List.filter, isItemAdded]
  | some c =>
    by_cases hp : c.parts.isEmpty
    · simp [processEvent, hc, hp, countItemAdded]
    · cases hb : ev.isPartial <;>
        simp [processEvent, hc, hp, hb, countItemAdded, List.filter_append,
          emitPartUpdates_fst_true, emitPartUpdates_fst_false,
          List.filter_map, isItemAdded, List.filter, Function.comp]

theorem countPartAdded_processEvent (response_id thread_id : String) (content_index : Nat)
    (ev : AdkEvent) :
    countPartAdded (processEvent response_id thread_id content_index ev)
      = if ev.content.isNone then 1 else 0 := by
  cases hc : ev.content with
  | none => simp [processEvent, hc, countPartAdded, List.filter, isPartAdded]
  | some c =>
    by_cases hp : c.parts.isEmpty
    · simp [processEvent, hc, hp, countPartAdded]
    · cases hb : ev.isPartial <;>
        simp [processEvent, hc, hp, hb, countPartAdded, List.filter_append,
          emitPartUpdates_fst_true, emitPartUpdates_fst_false,
          List.filter_map, isPartAdded, List.filter, Function.comp]

theorem countItemDone_processEvent (response_id thread_id : String) (content_index : Nat)
    (ev : AdkEvent) :
    countItemDone (processEvent response_id thread_id content_index ev)
      = if hasParts ev then 1 else 0 := by
  cases hc : ev.content with
  | none => simp [processEvent, hc, hasParts, countItemDone, List.filter, isItemDone]
  | some c =>
    by_cases hp : c.parts.isEmpty
    · simp [processEvent, hc, hp, hasParts, countItemDone]
    · cases hb : ev.isPartial <;>
        simp [processEvent, hc, hp, hb, hasParts, countItemDone, List.filter_append,
          emitPartUpdates_fst_true, emitPartUpdates_fst_false,
          List.filter_map, isItemDone, List.filter, Function.comp]

theorem deltaTexts_append (a b : List ThreadStreamEvent) :
    deltaTexts (a ++ b) = deltaTexts a ++ deltaTexts b := by
  simp [deltaTexts, List.filterMap_append]

theorem partDoneTexts_append (a b : List ThreadStreamEvent) :
    partDoneTexts (a ++ b) = partDoneTexts a ++ partDoneTexts b := by
  simp [partDoneTexts, List.filterMap_append]

theorem deltaTexts_map_delta (response_id : String) (content_index : Nat) (l : List String) :
    deltaTexts (l.map (fun t => .itemUpdated response_id (.partTextDelta t content_index))) = l := by
  induction l with
  | nil => rfl
  | cons a l ih => simpa [deltaTexts, List.filterMap] using ih

theorem deltaTexts_map_done (response_id : String) (content_index : Nat) (l : List String) :
    deltaTexts (l.map (fun t => .itemUpdated response_id (.partDone ⟨t⟩ content_index))) = [] := by
  induction l with
  | nil => rfl
  | cons a l ih => simp [deltaTexts, List.filterMap]

theorem partDoneTexts_map_done (response_id : String) (content_index : Nat) (l : List String) :
    partDoneTexts (l.map (fun t => .itemUpdated response_id (.partDone ⟨t⟩ content_index))) = l := by
  induction l with
  | nil => rfl
  | cons a l ih => simpa [partDoneTexts, List.filterMap] using ih

theorem partDoneTexts_map_delta (response_id : String) (content_index : Nat) (l : List String) :
    partDoneTexts (l.map (fun t => .itemUpdated response_id (.partTextDelta t content_index))) = [] := by
  induction l with
  | nil => rfl
  | cons a l ih => simp [partDoneTexts, List.filterMap]

theorem deltaTexts_processEvent (response_id thread_id : String) (content_index : Nat)
    (ev : AdkEvent) :
    deltaTexts (processEvent response_id thread_id content_index ev)
      = if ev.isPartial then truthyTexts ev.partsOf else [] := by
  cases hc : ev.content with
  | none => cases hb : ev.isPartial <;> simp [processEvent, hc, hb, deltaTexts, AdkEvent.partsOf, truthyTexts]
  | some c =>
    by_cases hp : c.parts.isEmpty
    · have : c.parts = [] := by simpa using hp
      cases hb : ev.isPartial <;>
        simp [processEvent, hc, hp, hb, deltaTexts, AdkEvent.partsOf, this, truthyTexts]
    · have hpe : processEvent response_id thread_id content_index ev
          = (emitPartUpdates ev.isPartial response_id content_index c.parts "").1
            ++ [.itemDone (.assistant
                  ⟨response_id,
                   [⟨(emitPartUpdates ev.isPartial response_id content_index c.parts "").2⟩],
                   thread_id⟩)] := by
        simp [processEvent, hc, hp]
      cases hb : ev.isPartial
      · rw [hpe, deltaTexts_append, hb, emitPartUpdates_fst_false, deltaTexts_map_done]
        simp [deltaTexts, List.filterMap]
      · rw [hpe, deltaTexts_append, hb, emitPartUpdates_fst_true, deltaTexts_map_delta]
        simp [deltaTexts, List.filterMap, AdkEvent.partsOf, hc]

theorem partDoneTexts_processEvent (response_id thread_id : String) (content_index : Nat)
    (ev : AdkEvent) :
    partDoneTexts (processEvent response_id thread_id content_index ev)
      = if ev.isPartial then [] else truthyTexts ev.partsOf := by
  cases hc : ev.content with
  | none => cases hb : ev.isPartial <;> simp [processEvent, hc, hb, partDoneTexts, AdkEvent.partsOf, truthyTexts]
  | some c =>
    by_cases hp : c.parts.isEmpty
    · have : c.parts = [] := by simpa using hp
      cases hb : ev.isPartial <;>
        simp [processEvent, hc, hp, hb, partDoneTexts, AdkEvent.partsOf, this, truthyTexts]
    · have hpe : processEvent response_id thread_id content_index ev
          = (emitPartUpdates ev.isPartial response_id content_index c.parts "").1
            ++ [.itemDone (.assistant
                  ⟨response_id,
                   [⟨(emitPartUpdates ev.isPartial response_id content_index c.parts "").2⟩],
                   thread_id⟩)] := by
        simp [processEvent, hc, hp]
      cases hb : ev.isPartial
      · rw [hpe, partDoneTexts_append, hb, emitPartUpdates_fst_false, partDoneTexts_map_done]
        simp [partDoneTexts, List.filterMap, AdkEvent.partsOf, hc]
      · rw [hpe, partDoneTexts_append, hb, emitPartUpdates_fst_true, partDoneTexts_map_delta]
        simp [partDoneTexts, List.filterMap]

/-! ### Whole-stream lemmas -/

/-- Does every event of the list carry the given item identifier? -/
def sharesResponseId (response_id : String) (es : List ThreadStreamEvent) : Bool :=
  es.all (fun e => eventItemId e == some response_id)

theorem sharesResponseId_processEvent (response_id thread_id : String) (content_index : Nat)
    (ev : AdkEvent) :
    sharesResponseId response_id (processEvent response_id thread_id content_index ev) = true := by
  cases hc : ev.content with
  | none => simp [processEvent, hc, sharesResponseId, eventItemId, ThreadItem.itemId]
  | some c =>
    by_cases hp : c.parts.isEmpty
    · simp [processEvent, hc, hp, sharesResponseId]
    · cases hb : ev.isPartial <;>
        simp [processEvent, hc, hp, hb, sharesResponseId, List.all_append,
          emitPartUpdates_fst_true, emitPartUpdates_fst_false, List.all_map,
          eventItemId, ThreadItem.itemId, Function.comp]

theorem sharesResponseId_streamLoop (response_id thread_id : String) (content_index : Nat)
    (evs : List AdkEvent) :
    sharesResponseId response_id (streamLoop response_id thread_id content_index evs) = true := by
  induction evs with
  | nil => rfl
  | cons ev rest ih =>
    have h1 := sharesResponseId_processEvent response_id thread_id content_index ev
    simp [streamLoop, sharesResponseId, List.all_append] at h1 ih ⊢
    exact ⟨h1, ih⟩

theorem countItemAdded_streamLoop (response_id thread_id : String) (content_index : Nat)
    (evs : List AdkEvent) :
    countItemAdded (streamLoop response_id thread_id content_index evs) = countNoContent evs := by
  induction evs with
  | nil => rfl
  | cons ev rest ih =>
    rw [streamLoop, countItemAdded_append, countItemAdded_processEvent, ih]
    cases h : ev.content.isNone <;> simp [countNoContent, List.filter_cons, h] <;> omega

theorem countPartAdded_streamLoop (response_id thread_id : String) (content_index : Nat)
    (evs : List AdkEvent) :
    countPartAdded (streamLoop response_id thread_id content_index evs) = countNoContent evs := by
  induction evs with
  | nil => rfl
  | cons ev rest ih =>
    rw [streamLoop, countPartAdded_append, countPartAdded_processEvent, ih]
    cases h : ev.content.isNone <;> simp [countNoContent, List.filter_cons, h] <;> omega

theorem countItemDone_streamLoop (response_id thread_id : String) (content_index : Nat)
    (evs : List AdkEvent) :
    countItemDone (streamLoop response_id thread_id content_index evs) = countPartsBearing evs := by
  induction evs with
  | nil => rfl
  | cons ev rest ih =>
    rw [streamLoop, countItemDone_append, countItemDone_processEvent, ih]
    cases h : hasParts ev <;> simp [countPartsBearing, List.filter_cons, h] <;> omega

theorem deltaTexts_streamLoop (response_id thread_id : String) (content_index : Nat)
    (evs : List AdkEvent) :
    deltaTexts (streamLoop response_id thread_id content_index evs)
      = partialDeltaTexts evs := by
  induction evs with
  | nil => rfl
  | cons ev rest ih =>
    rw [streamLoop, deltaTexts_append, deltaTexts_processEvent, ih]
    simp [partialDeltaTexts]

theorem partDoneTexts_streamLoop (response_id thread_id : String) (content_index : Nat)
    (evs : List AdkEvent) :
    partDoneTexts (streamLoop response_id thread_id content_index evs)
      = finalChunkTexts evs := by
  induction evs with
  | nil => rfl
  | cons ev rest ih =>
    rw [streamLoop, partDoneTexts_append, partDoneTexts_processEvent, ih]
    simp [finalChunkTexts]

/-! ### Claims about the event translator -/

/-- C1, counterexample.  The claim says: any sequence containing a
`partial=false` event with non-empty text yields exactly one item-added,
exactly one part-added and exactly one item-done.  Both halves fail on the
code: a lone final chunk (no "no content yet" event) yields zero item-added
and zero part-added, and a sequence with two final chunks yields two item-done
events, because the priming pair is tied to `content is None` events and the
`ThreadItemDoneEvent` is yielded inside the per-event loop. -/
theorem translator_single_identity_cex :
    (hasFinalText [finalHelloEvent] = true
      ∧ countItemAdded (stream_agent_response "resp_1" sampleThread (some [finalHelloEvent])) = 0
      ∧ countPartAdded (stream_agent_response "resp_1" sampleThread (some [finalHelloEvent])) = 0)
    ∧ (hasFinalText [noContentEvent, finalHelloEvent, finalWorldEvent] = true
      ∧ countItemAdded (stream_agent_response "resp_1" sampleThread
          (some [noContentEvent, finalHelloEvent, finalWorldEvent])) = 1
      ∧ countItemDone (stream_agent_response "resp_1" sampleThread
          (some [noContentEvent, finalHelloEvent, finalWorldEvent])) = 2) := by
  decide

/-- C1 (amended): for every input sequence, `stream_agent_response` processes
the events one at a time (its output is the concatenation of each event's
contribution), every emitted event carries the single item identifier
generated once for the whole call, the numbers of item-added and part-added
events each equal the number of input events with absent content, and the
number of item-done events equals the number of input events with non-empty
content parts — each item-done being emitted with its event's contribution,
not once after the input is exhausted. -/
theorem translator_counts_and_identity (response_id : String) (thread : ThreadMetadata)
    (evs : List AdkEvent) :
    stream_agent_response response_id thread (some evs)
        = evs.flatMap (processEvent response_id thread.id 0)
      ∧ sharesResponseId response_id (stream_agent_response response_id thread (some evs)) = true
      ∧ countItemAdded (stream_agent_response response_id thread (some evs)) = countNoContent evs
      ∧ countPartAdded (stream_agent_response response_id thread (some evs)) = countNoContent evs
      ∧ countItemDone (stream_agent_response response_id thread (some evs))
          = countPartsBearing evs := by
  refine ⟨streamLoop_eq_flatMap _ _ _ _, ?_, ?_, ?_, ?_⟩
  · exact sharesResponseId_streamLoop response_id thread.id 0 evs
  · exact countItemAdded_streamLoop response_id thread.id 0 evs
  · exact countPartAdded_streamLoop response_id thread.id 0 evs
  · exact countItemDone_streamLoop response_id thread.id 0 evs

/-- C2, counterexample.  The claim says the priming pair is emitted at most
once per call, only on the first no-content event.  On an input with two
`content is None` events the code emits the pair twice. -/
theorem priming_pair_once_cex :
    countItemAdded (stream_agent_response "resp_1" sampleThread
        (some [noContentEvent, noContentEvent])) = 2
      ∧ countPartAdded (stream_agent_response "resp_1" sampleThread
          (some [noContentEvent, noContentEvent])) = 2 := by
  decide

/-- C2 (amended): the priming pair — item-added for an empty assistant item
followed by part-added with empty text at content index 0 — is emitted once
per input event whose content is absent, at that event's position in the
stream: on every such event, not only the first. -/
theorem priming_pair_per_none_event (response_id : String) (thread : ThreadMetadata)
    (pre post : List AdkEvent) (b : Bool) :
    stream_agent_response response_id thread
        (some (pre ++ { content := none, isPartial := b } :: post))
      = stream_agent_response response_id thread (some pre)
        ++ ([.itemAdded (.assistant ⟨response_id, [], thread.id⟩),
             .itemUpdated response_id (.partAdded 0 ⟨""⟩)]
            ++ stream_agent_response response_id thread (some post)) := by
  simp [stream_agent_response, streamLoop_eq_flatMap, processEvent]

/-- C3, evaluation at the failing input.  Input: a `partial=false` chunk
`"Hello"` followed by a `partial=true` delta `"X"`.  The last `partial=false`
chunk of the sequence is `"Hello"`, but the code emits two item-done events
and the final one carries the empty string — `text_from_final_update` is reset
for every event and the `ThreadItemDoneEvent` is yielded inside the loop. -/
theorem itemDone_final_text_eval :
    stream_agent_response "resp_1" sampleThread (some [finalHelloEvent, deltaEvent "X"])
      = [.itemUpdated "resp_1" (.partDone ⟨"Hello"⟩ 0),
         .itemDone (.assistant ⟨"resp_1", [⟨"Hello"⟩], "thr_1"⟩),
         .itemUpdated "resp_1" (.partTextDelta "X" 0),
         .itemDone (.assistant ⟨"resp_1", [⟨""⟩], "thr_1"⟩)]
      ∧ finalChunkTexts [finalHelloEvent, deltaEvent "X"] = ["Hello"] := by
  decide

/-- C4, evaluation at the failing input (the spec's Scenario B).  Input: two
`partial=true` deltas and no final chunk.  The claim (and Scenario B) says the
output is the two part-delta events with no item-done; the code additionally
emits an item-done event with empty content after each delta, because the
`ThreadItemDoneEvent` is yielded inside the per-event loop whenever
`event.content.parts` is non-empty. -/
theorem partial_only_sequence_eval :
    stream_agent_response "resp_1" sampleThread (some [deltaEvent "A", deltaEvent "AB"])
      = [.itemUpdated "resp_1" (.partTextDelta "A" 0),
         .itemDone (.assistant ⟨"resp_1", [⟨""⟩], "thr_1"⟩),
         .itemUpdated "resp_1" (.partTextDelta "AB" 0),
         .itemDone (.assistant ⟨"resp_1", [⟨""⟩], "thr_1"⟩)]
      ∧ hasFinalText [deltaEvent "A", deltaEvent "AB"] = false
      ∧ countItemDone (stream_agent_response "resp_1" sampleThread
          (some [deltaEvent "A", deltaEvent "AB"])) = 2 := by
  decide

/-- C7: every part-delta event's text equals exactly the delta text of a
`partial=true` input part and every part-done event's text equals exactly the
text of the corresponding `partial=false` input part — in order and without
any concatenation or accumulation by the translator. -/
theorem delta_done_texts_exact (response_id : String) (thread : ThreadMetadata)
    (evs : List AdkEvent) :
    deltaTexts (stream_agent_response response_id thread (some evs)) = partialDeltaTexts evs
      ∧ partDoneTexts (stream_agent_response response_id thread (some evs))
          = finalChunkTexts evs :=
  ⟨deltaTexts_streamLoop response_id thread.id 0 evs,
   partDoneTexts_streamLoop response_id thread.id 0 evs⟩

/-! ### Concrete processor/store sample inputs -/

def emptyService : SessionService := { sessions := [] }

def ctx1 : ADKContext := { app_name := "a1", user_id := "u1" }

def input1 : UserMessageInput :=
  { content := [{ text := "hi" }], quoted_text := none, inference_options := { payload := none } }

/-- A delegate that produces no events (used by the closed theorems). -/
def emptyRespond : ThreadMetadata → Option UserMessageItem → List ThreadStreamEvent :=
  fun _ _ => []

def sessA : Session := { id := "thr_1", state := [], events := [], last_update_time := 5 }

def svcA : SessionService := { sessions := [(⟨"a1", "u1", "thr_1"⟩, sessA)] }

def params0 : ThreadListParams := { limit := none, after := none, order := none }

/-! ### Map lemmas for the session store -/

theorem lookupEntry_setEntry_self (m : List (SessionKey × Session)) (k : SessionKey)
    (v : Session) : lookupEntry (setEntry m k v) k = some v := by
  induction m with
  | nil => simp [setEntry, lookupEntry]
  | cons p rest ih =>
    obtain ⟨k', v'⟩ := p
    by_cases h : k' = k
    · simp [setEntry, lookupEntry, h]
    · simp [setEntry, lookupEntry, h, ih]

theorem get_session_create_session (svc : SessionService) (app_name user_id session_id : String)
    (state : List (String × JsonValue)) (now : Nat) :
    get_session (create_session svc app_name user_id session_id state now).1
        app_name user_id session_id
      = some { id := session_id, state := state, events := [], last_update_time := now } := by
  simp [get_session, create_session, lookupEntry_setEntry_self]

theorem get_session_append_event (svc : SessionService) (app_name user_id : String)
    (s : Session) (e : SessionEvent) :
    get_session (append_event svc app_name user_id s e) app_name user_id s.id
      = some { s with state := applyDelta s.state e.state_delta, events := s.events ++ [e] } := by
  simp [get_session, append_event, lookupEntry_setEntry_self]

/-! ### Claims about the request processor and the store -/

/-- C5, counterexample.  Processing an add-user-message request whose thread
id has no session raises the generic built-in `ValueError` (with a message
naming the missing session id); it is not the dedicated `ThreadNotFound`
not-found value the claim requires — no such error type exists in the
adapter's code. -/
theorem add_user_message_not_found_cex :
    _process_streaming_impl emptyService ctx1 (.threadsAddUserMessage "t1" input1)
        emptyRespond "thr_new" "msg_1" 0
      = .error (.valueError "Session with id t1 not found for user u1 in app a1")
    ∧ isThreadNotFound (_process_streaming_impl emptyService ctx1
        (.threadsAddUserMessage "t1" input1) emptyRespond "thr_new" "msg_1" 0) = false :=
  ⟨rfl, rfl⟩

/-- C5 (amended): for every add-user-message request whose thread id has no
session for the caller's app/user pair, processing fails by raising a
`ValueError` whose message identifies the missing session id, user and app —
a generic exception; no dedicated ThreadNotFound error value is produced. -/
theorem add_user_message_not_found_valueError (svc : SessionService)
    (adk_context : ADKContext) (thread_id : String) (input : UserMessageInput)
    (respond : ThreadMetadata → Option UserMessageItem → List ThreadStreamEvent)
    (new_thread_id message_id : String) (now : Nat)
    (h : get_session svc adk_context.app_name adk_context.user_id thread_id = none) :
    _process_streaming_impl svc adk_context (.threadsAddUserMessage thread_id input)
        respond new_thread_id message_id now
      = .error (.valueError
          (sessionNotFoundMsg thread_id adk_context.user_id adk_context.app_name)) := by
  simp [_process_streaming_impl, load_thread, h]

/-- Witness for the amended C5 at a concrete input. -/
theorem add_user_message_not_found_valueError_witness :
    get_session emptyService ctx1.app_name ctx1.user_id "t1" = none
    ∧ _process_streaming_impl emptyService ctx1 (.threadsAddUserMessage "t1" input1)
          emptyRespond "thr_new" "msg_1" 0
        = .error (.valueError (sessionNotFoundMsg "t1" ctx1.user_id ctx1.app_name)) :=
  ⟨rfl,
   add_user_message_not_found_valueError emptyService ctx1 "t1" input1 emptyRespond
     "thr_new" "msg_1" 0 rfl⟩

/-- C6: in the create-thread streaming flow the output sequence is exactly the
thread-created event, then the item-done event for the user's own message
item, then the delegate's (respond hook's) events — so the stream begins with
thread-created, and the user's item-done appears strictly before any event
derived from the delegate. -/
theorem create_thread_flow_order (svc : SessionService) (adk_context : ADKContext)
    (input : UserMessageInput)
    (respond : ThreadMetadata → Option UserMessageItem → List ThreadStreamEvent)
    (new_thread_id message_id : String) (now : Nat) :
    _process_streaming_impl svc adk_context (.threadsCreate input) respond
        new_thread_id message_id now
      = .ok ((create_thread svc adk_context new_thread_id [] now).1,
          .threadCreated (create_thread svc adk_context new_thread_id [] now).2
            :: .itemDone (.user (_build_user_message_item input
                  (create_thread svc adk_context new_thread_id [] now).2.toMetadata message_id))
            :: respond (create_thread svc adk_context new_thread_id [] now).2.toMetadata
                 (some (_build_user_message_item input
                    (create_thread svc adk_context new_thread_id [] now).2.toMetadata
                    message_id))) :=
  rfl

/-- C9: `save_thread` creates the backing session (state holding the
serialized metadata, empty event log) when none exists for the thread id;
when the session exists it appends exactly one system event whose state delta
carries the serialized thread metadata, leaving the previously appended
events unchanged as a prefix (the log is append-only, never overwritten). -/
theorem save_thread_create_or_append (svc : SessionService) (context : ADKContext)
    (thread : ThreadMetadata) (invocation_id : String) (now : Nat) :
    (get_session svc context.app_name context.user_id thread.id = none →
      get_session (save_thread svc context thread invocation_id now)
          context.app_name context.user_id thread.id
        = some { id := thread.id
                 state := [(_CHATKIT_THREAD_METADTA, _serialize_thread_metadata thread)]
                 events := []
                 last_update_time := now })
    ∧ ∀ s, get_session svc context.app_name context.user_id thread.id = some s →
        s.id = thread.id →
        get_session (save_thread svc context thread invocation_id now)
            context.app_name context.user_id thread.id
          = some { s with
              state := applyDelta s.state
                [(_CHATKIT_THREAD_METADTA, _serialize_thread_metadata thread)]
              events := s.events ++
                [{ invocation_id := invocation_id
                   author := "system"
                   state_delta := [(_CHATKIT_THREAD_METADTA, _serialize_thread_metadata thread)]
                   timestamp := now }] } := by
  constructor
  · intro h
    simp [save_thread, h, get_session_create_session]
  · intro s h hid
    have h2 := get_session_append_event svc context.app_name context.user_id s
      { invocation_id := invocation_id
        author := "system"
        state_delta := [(_CHATKIT_THREAD_METADTA, _serialize_thread_metadata thread)]
        timestamp := now }
    rw [hid] at h2
    simp [save_thread, h, h2]
    exact hid.symm

/-- Witness for C9, covering both branches at concrete inputs: an absent
session (created) and an existing session with a non-empty key space (one
event appended, log preserved). -/
theorem save_thread_create_or_append_witness :
    (get_session emptyService ctx1.app_name ctx1.user_id sampleThread.id = none
      ∧ get_session (save_thread emptyService ctx1 sampleThread "inv_1" 7)
            ctx1.app_name ctx1.user_id sampleThread.id
          = some { id := sampleThread.id
                   state := [(_CHATKIT_THREAD_METADTA, _serialize_thread_metadata sampleThread)]
                   events := []
                   last_update_time := 7 })
    ∧ (get_session svcA ctx1.app_name ctx1.user_id sampleThread.id = some sessA
      ∧ get_session (save_thread svcA ctx1 sampleThread "inv_1" 7)
            ctx1.app_name ctx1.user_id sampleThread.id
          = some { sessA with
              state := applyDelta sessA.state
                [(_CHATKIT_THREAD_METADTA, _serialize_thread_metadata sampleThread)]
              events := sessA.events ++
                [{ invocation_id := "inv_1"
                   author := "system"
                   state_delta := [(_CHATKIT_THREAD_METADTA,
                                    _serialize_thread_metadata sampleThread)]
                   timestamp := 7 }] }) :=
  ⟨⟨rfl, (save_thread_create_or_append emptyService ctx1 sampleThread "inv_1" 7).1 rfl⟩,
   ⟨rfl, (save_thread_create_or_append svcA ctx1 sampleThread "inv_1" 7).2 sessA rfl rfl⟩⟩

/-- C10: whenever the underlying session exists, the processor's
thread-returning helpers yield thread records whose title is the constant
"No title" and whose metadata map is empty, and, for `load_full_thread` (the
get-thread-by-id path), an empty items page — whatever thread metadata the
session state holds is never reflected. -/
theorem thread_views_constant_fields :
    (∀ (svc : SessionService) (adk_context : ADKContext) (params : ThreadListParams)
        (t : ThreadMetadata), t ∈ (list_threads svc adk_context params).data →
        t.title = some "No title" ∧ t.metadata = [])
    ∧ (∀ (svc : SessionService) (adk_context : ADKContext) (session_id : String)
        (t : ThreadMetadata), load_thread svc adk_context session_id = .ok t →
        t.title = some "No title" ∧ t.metadata = [])
    ∧ (∀ (svc : SessionService) (adk_context : ADKContext) (session_id : String)
        (th : Thread), load_full_thread svc adk_context session_id = .ok th →
        th.title = some "No title" ∧ th.metadata = [] ∧ th.items.data = []) := by
  refine ⟨?_, ?_, ?_⟩
  · intro svc c params t ht
    simp [list_threads] at ht
    obtain ⟨s, _, rfl⟩ := ht
    exact ⟨rfl, rfl⟩
  · intro svc c session_id t h
    cases hg : get_session svc c.app_name c.user_id session_id with
    | none => simp [load_thread, hg] at h
    | some s =>
      simp [load_thread, hg] at h
      rw [← h]
      exact ⟨rfl, rfl⟩
  · intro svc c session_id th h
    cases hg : get_session svc c.app_name c.user_id session_id with
    | none => simp [load_full_thread, hg] at h
    | some s =>
      simp [load_full_thread, hg] at h
      rw [← h]
      exact ⟨rfl, rfl, rfl⟩

/-- The thread record `list_threads` / `load_thread` produce for `sessA`. -/
def threadViewA : ThreadMetadata :=
  { id := "thr_1", title := some "No title", created_at := 5, metadata := [] }

/-- The full thread record `load_full_thread` produces for `sessA`. -/
def fullThreadViewA : Thread :=
  { id := "thr_1", title := some "No title", created_at := 5, metadata := [],
    items := { data := [] } }

/-- Witness for C10 at a concrete service holding one session: each branch's
hypothesis holds there and the conclusions follow by the theorem. -/
theorem thread_views_constant_fields_witness :
    (threadViewA ∈ (list_threads svcA ctx1 params0).data
      ∧ threadViewA.title = some "No title" ∧ threadViewA.metadata = [])
    ∧ (load_thread svcA ctx1 "thr_1" = .ok threadViewA
      ∧ threadViewA.title = some "No title" ∧ threadViewA.metadata = [])
    ∧ (load_full_thread svcA ctx1 "thr_1" = .ok fullThreadViewA
      ∧ fullThreadViewA.title = some "No title" ∧ fullThreadViewA.metadata = []
      ∧ fullThreadViewA.items.data = []) :=
  ⟨⟨by decide, thread_views_constant_fields.1 svcA ctx1 params0 threadViewA (by decide)⟩,
   ⟨rfl, thread_views_constant_fields.2.1 svcA ctx1 "thr_1" threadViewA rfl⟩,
   ⟨rfl, thread_views_constant_fields.2.2 svcA ctx1 "thr_1" fullThreadViewA rfl⟩⟩

/-! ### Serialization properties (alias naming, null omission, SSE framing) -/

/-- `_process_non_streaming` returns `_serialize` of the single result model
(the list page or the loaded thread) with no framing: one JSON document under
the same serialization rules. -/
def _process_non_streaming_result (result : JsonValue) : String :=
  _serialize result

mutual
/-- Blank every Python-side field name in a model tree, keeping the aliases:
two models that differ only in Python field names serialize identically under
`by_alias=True`. -/
def eraseNamesV : JsonValue → JsonValue
  | .null => .null
  | .str s => .str s
  | .num n => .num n
  | .jbool b => .jbool b
  | .arr xs => .arr (eraseNamesA xs)
  | .obj fs => .obj (eraseNamesF fs)

def eraseNamesA : JsonArray → JsonArray
  | .nil => .nil
  | .cons v rest => .cons (eraseNamesV v) (eraseNamesA rest)

def eraseNamesF : JsonFields → JsonFields
  | .nil => .nil
  | .cons _ fieldAlias v rest => .cons "" fieldAlias (eraseNamesV v) (eraseNamesF rest)
end

mutual
theorem model_dump_eraseNamesV (v : JsonValue) :
    model_dump_json true true (eraseNamesV v) = model_dump_json true true v := by
  cases v with
  | null => rfl
  | str s => rfl
  | num n => rfl
  | jbool b => rfl
  | arr xs => simp [eraseNamesV, model_dump_json, model_dump_eraseNamesA xs]
  | obj fs => simp [eraseNamesV, model_dump_json, model_dump_eraseNamesF fs]

theorem model_dump_eraseNamesA (xs : JsonArray) :
    dumpElems true true (eraseNamesA xs) = dumpElems true true xs := by
  cases xs with
  | nil => rfl
  | cons v rest =>
    simp [eraseNamesA, dumpElems, model_dump_eraseNamesV v, model_dump_eraseNamesA rest]

theorem model_dump_eraseNamesF (fs : JsonFields) :
    dumpFields true true (eraseNamesF fs) = dumpFields true true fs := by
  cases fs with
  | nil => rfl
  | cons n a v rest =>
    have hv := model_dump_eraseNamesV v
    have hrest := model_dump_eraseNamesF rest
    cases v <;> simp_all [eraseNamesF, eraseNamesV, dumpFields]
end

/-- C8: every streamed event is framed as the bytes of
`data: <json>` plus two newlines, where `<json>` is the event serialized with
`by_alias=True, exclude_none=True`; the serializer omits `None` fields (a
null field can be dropped without changing the output) and names fields only
by their aliases (the output is invariant under erasing every Python field
name); a non-streaming response is the same serialization of the single
result model with no framing. -/
theorem serialization_framing_alias_null :
    (∀ events : List JsonValue,
        _process_streaming events = events.map (fun e => "data: " ++ _serialize e ++ "\n\n"))
    ∧ (∀ obj : JsonValue, _serialize obj = model_dump_json true true obj)
    ∧ (∀ (name fieldAlias : String) (rest : JsonFields),
        _serialize (.obj (.cons name fieldAlias .null rest)) = _serialize (.obj rest))
    ∧ (∀ v : JsonValue, _serialize (eraseNamesV v) = _serialize v)
    ∧ (∀ result : JsonValue, _process_non_streaming_result result
        = model_dump_json true true result) := by
  refine ⟨?_, fun _ => rfl, ?_, ?_, fun _ => rfl⟩
  · intro events
    induction events with
    | nil => rfl
    | cons e rest ih => simp [_process_streaming, ih]
  · intro n a rest
    simp [_serialize, model_dump_json, dumpFields]
  · intro v
    simpa [_serialize] using model_dump_eraseNamesV v
